import Mathlib

/-!
# Verification of the rdmamap RDMA device-resolution library

A shallow embedding of `rdma_map.go`: the pseudo-filesystem the code
scans is modelled as an explicit state (`FS`), the netlink collaborator
as `Netlink`, and each Go function becomes a Lean function over that
state.  Go's `(value, error)` returns, together with runtime panics
(out-of-bounds slicing), are modelled by `GoRes`.
-/

set_option maxHeartbeats 1000000

namespace Rdmamap

/-- Result of a Go call: normal return, error return, or runtime panic
(e.g. out-of-bounds slice). -/
inductive GoRes (α : Type) where
  | ok (a : α)
  | err (msg : String)
  | panic
deriving DecidableEq, Repr

/-- A directory entry as produced by `Readdir`: a name and whether the
entry is a directory. -/
structure DirEntry where
  name : String
  isDir : Bool
deriving DecidableEq, Repr

/-- Outcome of `os.Open` + `Readdir` on a directory path: the open can
fail, the read of the entries can fail, or a list of entries results. -/
inductive DirRead where
  | openFail (msg : String)
  | readFail (msg : String)
  | ok (entries : List DirEntry)
deriving DecidableEq, Repr

/-- The pseudo-filesystem state: directory listings, whole-file reads
(`os.OpenFile` + `Seek` + `io.ReadAll`, all failures collapsed into the
error case), and `os.Stat` (returning the stat'ed file's base name). -/
structure FS where
  dirs : String → DirRead
  readFile : String → Except String String
  statName : String → Except String String

/-- Attributes of a network interface as returned by the netlink
collaborator (`LinkAttrs`). -/
structure LinkAttrs where
  encapType : String
  hardwareAddr : List Nat
deriving DecidableEq, Repr

/-- The external netlink collaborator: `LinkByName`. -/
structure Netlink where
  linkByName : String → Except String LinkAttrs

/- Path constants from the source. -/

def RdmaClassDir : String := "/sys/class/infiniband"
def RdmaIbUcmDir : String := "/sys/class/infiniband_cm"
def RdmaUmadDir : String := "/sys/class/infiniband_mad"
def RdmaUverbsDir : String := "/sys/class/infiniband_verbs"
def RdmaUcmDevice : String := "/dev/infiniband/rdma_cm"
def RdmaDeviceDir : String := "/dev/infiniband"

def RdmaUcmFilePrefix : String := "ucm"
def RdmaIssmFilePrefix : String := "issm"
def RdmaUmadFilxPrefix : String := "umad"
def RdmaUverbsFilxPrefix : String := "uverbs"
def RdmaGidAttrDir : String := "gid_attrs"
def RdmaGidAttrNdevDir : String := "ndevs"
def RdmaPortsdir : String := "ports"
def RdmaNodeGuidFile : String := "node_guid"
def prevDir : String := ".."
def nibbleBitSize : Nat := 4

/-- `filepath.Join` for the simple two-component joins this code does. -/
def pJoin (a b : String) : String := a ++ "/" ++ b

/-- `strings.Trim(s, "\n")`: strip every leading and trailing newline. -/
def trimNewlines (s : String) : String :=
  String.mk (((s.data.dropWhile (· = '\n')).reverse.dropWhile (· = '\n')).reverse)

/-- `strings.TrimSuffix(s, "\n")`: strip one trailing newline if present. -/
def trimSuffixNewline (s : String) : String :=
  if s.data.getLast? = some '\n' then String.mk s.data.dropLast else s

/-- `strings.Contains(s, sub)`. -/
def strContains (s sub : String) : Bool := decide (List.IsInfix sub.data s.data)

/-- `GetRdmaDeviceList`: list the RDMA class directory, keeping the
non-directory entries; any failure yields the empty list. -/
def GetRdmaDeviceList (fs : FS) : List String :=
  match fs.dirs RdmaClassDir with
  | .openFail _ => []
  | .readFail _ => []
  | .ok entries => (entries.filter (fun e => !e.isDir)).map DirEntry.name

/-- `isDirForRdmaDevice`: read `<dirName>/ibdev` and compare its content,
trimmed of newlines, with the device name; any read failure is `false`. -/
def isDirForRdmaDevice (fs : FS) (rdmaDeviceName dirName : String) : Bool :=
  match fs.readFile (pJoin dirName "ibdev") with
  | .error _ => false
  | .ok data => trimNewlines data = rdmaDeviceName

/-- The loop body of `getCharDevice` over the already-listed entries. -/
def scanCharEntries (fs : FS) (rdmaDeviceName classDir charDevPrefix : String) :
    List DirEntry → GoRes String
  | [] => .err "no ucm device found"
  | e :: rest =>
    if e.name = "." ∨ e.name = prevDir then
      scanCharEntries fs rdmaDeviceName classDir charDevPrefix rest
    else if ¬ strContains e.name charDevPrefix then
      scanCharEntries fs rdmaDeviceName classDir charDevPrefix rest
    else if ¬ isDirForRdmaDevice fs rdmaDeviceName (pJoin classDir e.name) then
      scanCharEntries fs rdmaDeviceName classDir charDevPrefix rest
    else
      .ok (pJoin "/dev/infiniband" e.name)

/-- `getCharDevice`: scan a class directory for the first entry whose name
contains the prefix and whose `ibdev` back-reference matches; note the
`Readdir` failure branch returns `("", nil)`, i.e. `ok ""`. -/
def getCharDevice (fs : FS) (rdmaDeviceName classDir charDevPrefix : String) :
    GoRes String :=
  match fs.dirs classDir with
  | .openFail msg => .err msg
  | .readFail _ => .ok ""
  | .ok entries => scanCharEntries fs rdmaDeviceName classDir charDevPrefix entries

def getUcmDevice (fs : FS) (rdmaDeviceName : String) : GoRes String :=
  getCharDevice fs rdmaDeviceName RdmaIbUcmDir RdmaUcmFilePrefix

def getIssmDevice (fs : FS) (rdmaDeviceName : String) : GoRes String :=
  getCharDevice fs rdmaDeviceName RdmaUmadDir RdmaIssmFilePrefix

def getUmadDevice (fs : FS) (rdmaDeviceName : String) : GoRes String :=
  getCharDevice fs rdmaDeviceName RdmaUmadDir RdmaUmadFilxPrefix

def getUverbDevice (fs : FS) (rdmaDeviceName : String) : GoRes String :=
  getCharDevice fs rdmaDeviceName RdmaUverbsDir RdmaUverbsFilxPrefix

/-- `getRdmaUcmDevice`: stat the well-known global device and require its
base name to be `rdma_cm`. -/
def getRdmaUcmDevice (fs : FS) : GoRes String :=
  match fs.statName RdmaUcmDevice with
  | .error msg => .err msg
  | .ok name =>
    if name = "rdma_cm" then .ok RdmaUcmDevice
    else .err "invalid file name rdma_cm"

/-- Go's `if err == nil { list = append(list, v) }` pattern. -/
def appendIfOk (r : GoRes String) : List String :=
  match r with
  | .ok v => [v]
  | _ => []

/-- `GetRdmaCharDevices`: collect the ucm/issm/umad/uverbs role devices
and the global `rdma_cm` device, skipping each role whose lookup errs. -/
def GetRdmaCharDevices (fs : FS) (rdmaDeviceName : String) : List String :=
  appendIfOk (getUcmDevice fs rdmaDeviceName) ++
  appendIfOk (getIssmDevice fs rdmaDeviceName) ++
  appendIfOk (getUmadDevice fs rdmaDeviceName) ++
  appendIfOk (getUverbDevice fs rdmaDeviceName) ++
  appendIfOk (getRdmaUcmDevice fs)

/-- `GetPorts`: list the device's `ports` subdirectory, skipping `.` and
`..`; any failure yields the empty list. -/
def GetPorts (fs : FS) (rdmaDeviceName : String) : List String :=
  match fs.dirs (pJoin (pJoin RdmaClassDir rdmaDeviceName) RdmaPortsdir) with
  | .openFail _ => []
  | .readFail _ => []
  | .ok entries =>
    ((entries.filter (fun e => !(e.name = "." ∨ e.name = prevDir))).map DirEntry.name)

/-- `getNetdeviceIds`: list the `gid_attrs/ndevs` subdirectory of a
device/port pair, skipping `.` and `..`. -/
def getNetdeviceIds (fs : FS) (rdmaDeviceName port : String) : List String :=
  match fs.dirs (pJoin (pJoin (pJoin (pJoin (pJoin RdmaClassDir rdmaDeviceName)
      RdmaPortsdir) port) RdmaGidAttrDir) RdmaGidAttrNdevDir) with
  | .openFail _ => []
  | .readFail _ => []
  | .ok entries =>
    ((entries.filter (fun e => !(e.name = "." ∨ e.name = prevDir))).map DirEntry.name)

/-- The path of a netdev-attachment index file. -/
def ndevPath (rdmaDeviceName port index : String) : String :=
  pJoin (pJoin (pJoin (pJoin (pJoin (pJoin RdmaClassDir rdmaDeviceName)
    RdmaPortsdir) port) RdmaGidAttrDir) RdmaGidAttrNdevDir) index

/-- `isNetdevForRdma`: read the index file and compare its content, one
trailing newline trimmed, with the netdev name; read failure is `false`. -/
def isNetdevForRdma (fs : FS) (rdmaDeviceName port index netdevName : String) : Bool :=
  match fs.readFile (ndevPath rdmaDeviceName port index) with
  | .error _ => false
  | .ok data => trimSuffixNewline data = netdevName

/-- The inner double loop of `getRdmaDeviceForEth` for one device: does
some port and some index attach `netdevName`? -/
def devMatchesEth (fs : FS) (netdevName dev : String) : Bool :=
  (GetPorts fs dev).any fun port =>
    (getNetdeviceIds fs dev port).any fun index =>
      isNetdevForRdma fs dev port index netdevName

/-- The outer loop of `getRdmaDeviceForEth`: first matching device. -/
def scanEthDevs (fs : FS) (netdevName : String) : List String → Option String
  | [] => none
  | dev :: rest =>
    if devMatchesEth fs netdevName dev then some dev
    else scanEthDevs fs netdevName rest

/-- `getRdmaDeviceForEth`: triple-nested scan; the first device with a
matching port/index wins, otherwise a "not found" error. -/
def getRdmaDeviceForEth (fs : FS) (netdevName : String) : GoRes String :=
  match scanEthDevs fs netdevName (GetRdmaDeviceList fs) with
  | some dev => .ok dev
  | none => .err ("rdma device not found for netdev " ++ netdevName)

/-- One hex digit as consumed by `strconv.ParseUint(string(b), 16, 8)`:
letters beyond `f`/`F` map to values `≥ 16` and are rejected by the
base check. -/
def parseHexDigit (c : Char) : Option Nat :=
  let v? : Option Nat :=
    if '0' ≤ c ∧ c ≤ '9' then some (c.toNat - '0'.toNat)
    else if 'a' ≤ c ∧ c ≤ 'z' then some (c.toNat - 'a'.toNat + 10)
    else if 'A' ≤ c ∧ c ≤ 'Z' then some (c.toNat - 'A'.toNat + 10)
    else none
  match v? with
  | some v => if v < 16 then some v else none
  | none => none

/-- The nibble-packing loop of `getNodeGUID`: skip colons; a non-hex
character fails the whole parse; nibbles pack two per byte, high nibble
shifted left `nibbleBitSize`, low nibble OR-ed into the last byte. -/
def packNibbles : List Char → Nat → List Nat → Except String (List Nat)
  | [], _, acc => .ok acc
  | b :: rest, j, acc =>
    if b = ':' then packNibbles rest j acc
    else
      match parseHexDigit b with
      | none => .error "invalid hex digit"
      | some c =>
        if j % 2 = 0 then
          packNibbles rest (j + 1) (acc ++ [c <<< nibbleBitSize])
        else
          packNibbles rest (j + 1) (acc.set (j / 2) (acc.getD (j / 2) 0 ||| c))

/-- The parsing part of `getNodeGUID` applied to the raw file content:
`data = data[:len(data)-1]` drops the final byte unconditionally — on
empty content that slice is out of bounds (a panic) — then the nibble
loop runs on what remains. -/
def parseNodeIdentifier (data : String) : GoRes (List Nat) :=
  if data.length = 0 then .panic
  else
    match packNibbles (data.data.take (data.length - 1)) 0 [] with
    | .error e => .err e
    | .ok g => .ok g

/-- `getNodeGUID`: read the device's `node_guid` file and parse it. -/
def getNodeGUID (fs : FS) (rdmaDeviceName : String) : GoRes (List Nat) :=
  match fs.readFile (pJoin (pJoin RdmaClassDir rdmaDeviceName) RdmaNodeGuidFile) with
  | .error e => .err e
  | .ok data => parseNodeIdentifier data

/-- `linkAttr.HardwareAddr[12:]`: the bytes the InfiniBand path compares
against node GUIDs. -/
def hardwareEUI (hwAddr : List Nat) : List Nat := hwAddr.drop 12

/-- The device loop of `getRdmaDeviceForIb`: any GUID read/parse failure
aborts the scan; a byte-equal GUID returns the device; exhausting the
list returns `("", nil)`. -/
def scanIbDevs (fs : FS) (eui : List Nat) : List String → GoRes String
  | [] => .ok ""
  | dev :: rest =>
    match getNodeGUID fs dev with
    | .err e => .err e
    | .panic => .panic
    | .ok g => if eui = g then .ok dev else scanIbDevs fs eui rest

/-- `getRdmaDeviceForIb`: slice the hardware address at byte 12 (a panic
when it is shorter) and scan all devices for a GUID equal to it. -/
def getRdmaDeviceForIb (fs : FS) (linkAttr : LinkAttrs) : GoRes String :=
  if linkAttr.hardwareAddr.length < 12 then .panic
  else scanIbDevs fs (hardwareEUI linkAttr.hardwareAddr) (GetRdmaDeviceList fs)

/-- `GetRdmaDeviceForNetdevice`: look the interface up via netlink, then
dispatch on its encapsulation type. -/
def GetRdmaDeviceForNetdevice (fs : FS) (nl : Netlink) (netdevName : String) :
    GoRes String :=
  match nl.linkByName netdevName with
  | .error e => .err e
  | .ok netAttr =>
    if netAttr.encapType = "ether" then getRdmaDeviceForEth fs netdevName
    else if netAttr.encapType = "infiniband" then getRdmaDeviceForIb fs netAttr
    else .err "unknown device type"

/-- `IsRDmaDeviceForNetdevice`: drop any error (its value becomes the
empty string) and test the result for non-emptiness. -/
def IsRDmaDeviceForNetdevice (fs : FS) (nl : Netlink) (netdevName : String) :
    GoRes Bool :=
  match GetRdmaDeviceForNetdevice fs nl netdevName with
  | .ok rdma => .ok (if rdma = "" then false else true)
  | .err _ => .ok false
  | .panic => .panic

/-! ## Spec-side definitions and helper lemmas for the round-trip claim -/


/-- Lowercase hex character for a nibble value. -/
def hexCharOf (n : Nat) : Char :=
  if n < 10 then Char.ofNat (n + '0'.toNat) else Char.ofNat (n - 10 + 'a'.toNat)

def encodeByte (b : Nat) : List Char := [hexCharOf (b / 16), hexCharOf (b % 16)]

def encodeGUIDChars : List Nat → List Char
  | [] => []
  | [b] => encodeByte b
  | b :: rest => encodeByte b ++ ':' :: encodeGUIDChars rest

def toLowerStr (s : String) : String := String.mk (s.data.map Char.toLower)

def wellFormedGUID (s : String) : Prop :=
  ∃ h1 l1 h2 l2 h3 l3 h4 l4 h5 l5 h6 l6 h7 l7 h8 l8 : Char,
    s.data = [h1, l1, ':', h2, l2, ':', h3, l3, ':', h4, l4, ':',
              h5, l5, ':', h6, l6, ':', h7, l7, ':', h8, l8, '\n'] ∧
    ∀ c ∈ [h1, l1, h2, l2, h3, l3, h4, l4, h5, l5, h6, l6, h7, l7, h8, l8],
      (parseHexDigit c).isSome = true

theorem char_le_iff {a b : Char} : a ≤ b ↔ a.toNat ≤ b.toNat := Iff.rfl

theorem toLower_eq_of_not_upper {c : Char} (h : ¬(65 ≤ c.toNat ∧ c.toNat ≤ 90)) :
    c.toLower = c := by
  rw [Char.toLower]
  exact if_neg h

theorem toLower_eq_of_upper {c : Char} (h : 65 ≤ c.toNat ∧ c.toNat ≤ 90) :
    c.toLower = Char.ofNat (c.toNat + 32) := by
  rw [Char.toLower]
  exact if_pos h

theorem parseHexDigit_facts {c : Char} {v : Nat} (h : parseHexDigit c = some v) :
    v < 16 ∧ hexCharOf v = c.toLower := by
  have e0 : ('0' : Char).toNat = 48 := by decide
  have e9 : ('9' : Char).toNat = 57 := by decide
  have ea : ('a' : Char).toNat = 97 := by decide
  have ez : ('z' : Char).toNat = 122 := by decide
  have eA : ('A' : Char).toNat = 65 := by decide
  have eZ : ('Z' : Char).toNat = 90 := by decide
  rw [hexCharOf]
  simp only [parseHexDigit, char_le_iff, e0, e9, ea, ez, eA, eZ] at h
  split at h
  case h_2 => exact Option.noConfusion h
  case h_1 w hc =>
    have hw : w < 16 ∧ w = v := by
      split at h
      · exact ⟨by assumption, by injection h⟩
      · exact Option.noConfusion h
    obtain ⟨hw16, rfl⟩ := hw
    refine ⟨hw16, ?_⟩
    split at hc
    · next hr =>
      have hv : w = c.toNat - 48 := by injection hc; omega
      rw [if_pos (by omega), show w + ('0' : Char).toNat = c.toNat by rw [e0]; omega,
        Char.ofNat_toNat, toLower_eq_of_not_upper (by omega)]
    · split at hc
      · next hr =>
        have hv : w = c.toNat - 97 + 10 := by injection hc; omega
        have hup : c.toNat ≤ 102 := by omega
        rw [if_neg (by omega), show w - 10 + ('a' : Char).toNat = c.toNat by rw [ea]; omega,
          Char.ofNat_toNat, toLower_eq_of_not_upper (by omega)]
      · split at hc
        · next hr =>
          have hv : w = c.toNat - 65 + 10 := by injection hc; omega
          have hup : c.toNat ≤ 70 := by omega
          rw [if_neg (by omega), toLower_eq_of_upper (by omega)]
          congr 1
          rw [ea]
          omega
        · exact Option.noConfusion hc

theorem parseHexDigit_ne_colon {c : Char} {v : Nat} (h : parseHexDigit c = some v) :
    ¬ c = ':' := by
  intro hc
  rw [hc, show parseHexDigit ':' = none from by decide] at h
  exact Option.noConfusion h

theorem getD_concat (acc : List Nat) (x : Nat) : (acc ++ [x]).getD acc.length 0 = x := by
  induction acc with
  | nil => rfl
  | cons a t ih => simp [ih]

theorem set_concat (acc : List Nat) (x y : Nat) :
    (acc ++ [x]).set acc.length y = acc ++ [y] := by
  induction acc with
  | nil => rfl
  | cons a t ih => simp [List.set, ih]

theorem packNibbles_colon (rest : List Char) (j : Nat) (acc : List Nat) :
    packNibbles (':' :: rest) j acc = packNibbles rest j acc := by
  simp [packNibbles]

theorem packNibbles_cons2 {a b : Char} {va vb : Nat} (rest : List Char) (j : Nat)
    (acc : List Nat) (hj : j % 2 = 0) (hlen : acc.length = j / 2)
    (ha : parseHexDigit a = some va) (hb : parseHexDigit b = some vb) :
    packNibbles (a :: b :: rest) j acc =
      packNibbles rest (j + 2) (acc ++ [va <<< nibbleBitSize ||| vb]) := by
  have hj1 : ¬ (j + 1) % 2 = 0 := by omega
  have hj2 : (j + 1) / 2 = acc.length := by omega
  rw [packNibbles, if_neg (parseHexDigit_ne_colon ha), ha]
  simp only [if_pos hj]
  rw [packNibbles, if_neg (parseHexDigit_ne_colon hb), hb]
  simp only [if_neg hj1]
  rw [hj2, getD_concat, set_concat]

theorem packNibbles_nil (j : Nat) (acc : List Nat) : packNibbles [] j acc = .ok acc := rfl

theorem nibble_divmod : ∀ a, a < 16 → ∀ b, b < 16 →
    (a <<< nibbleBitSize ||| b) / 16 = a ∧ (a <<< nibbleBitSize ||| b) % 16 = b := by
  decide

set_option maxHeartbeats 2000000 in
/-- C1: for every well-formed colon-separated 8-byte hexadecimal
node-identifier string (23 characters plus a trailing newline), the
parsing done by `getNodeGUID` returns exactly 8 bytes, and re-encoding
those bytes as colon-separated lowercase two-digit hex (followed by the
newline) equals the lowercasing of the input. -/
theorem parseNodeIdentifier_roundtrip (s : String) (h : wellFormedGUID s) :
    ∃ bs, parseNodeIdentifier s = .ok bs ∧ bs.length = 8 ∧
      String.mk (encodeGUIDChars bs ++ ['\n']) = toLowerStr s := by
  obtain ⟨h1, l1, h2, l2, h3, l3, h4, l4, h5, l5, h6, l6, h7, l7, h8, l8, hdata, hhex⟩ := h
  obtain ⟨v1, hv1⟩ := Option.isSome_iff_exists.mp (hhex h1 (by simp))
  obtain ⟨w1, hw1⟩ := Option.isSome_iff_exists.mp (hhex l1 (by simp))
  obtain ⟨v2, hv2⟩ := Option.isSome_iff_exists.mp (hhex h2 (by simp))
  obtain ⟨w2, hw2⟩ := Option.isSome_iff_exists.mp (hhex l2 (by simp))
  obtain ⟨v3, hv3⟩ := Option.isSome_iff_exists.mp (hhex h3 (by simp))
  obtain ⟨w3, hw3⟩ := Option.isSome_iff_exists.mp (hhex l3 (by simp))
  obtain ⟨v4, hv4⟩ := Option.isSome_iff_exists.mp (hhex h4 (by simp))
  obtain ⟨w4, hw4⟩ := Option.isSome_iff_exists.mp (hhex l4 (by simp))
  obtain ⟨v5, hv5⟩ := Option.isSome_iff_exists.mp (hhex h5 (by simp))
  obtain ⟨w5, hw5⟩ := Option.isSome_iff_exists.mp (hhex l5 (by simp))
  obtain ⟨v6, hv6⟩ := Option.isSome_iff_exists.mp (hhex h6 (by simp))
  obtain ⟨w6, hw6⟩ := Option.isSome_iff_exists.mp (hhex l6 (by simp))
  obtain ⟨v7, hv7⟩ := Option.isSome_iff_exists.mp (hhex h7 (by simp))
  obtain ⟨w7, hw7⟩ := Option.isSome_iff_exists.mp (hhex l7 (by simp))
  obtain ⟨v8, hv8⟩ := Option.isSome_iff_exists.mp (hhex h8 (by simp))
  obtain ⟨w8, hw8⟩ := Option.isSome_iff_exists.mp (hhex l8 (by simp))
  have hslen : s.length = 24 := by
    rw [show s.length = s.data.length from rfl, hdata]
    rfl
  have ne1 := parseHexDigit_ne_colon hv1
  have nf1 := parseHexDigit_ne_colon hw1
  have ne2 := parseHexDigit_ne_colon hv2
  have nf2 := parseHexDigit_ne_colon hw2
  have ne3 := parseHexDigit_ne_colon hv3
  have nf3 := parseHexDigit_ne_colon hw3
  have ne4 := parseHexDigit_ne_colon hv4
  have nf4 := parseHexDigit_ne_colon hw4
  have ne5 := parseHexDigit_ne_colon hv5
  have nf5 := parseHexDigit_ne_colon hw5
  have ne6 := parseHexDigit_ne_colon hv6
  have nf6 := parseHexDigit_ne_colon hw6
  have ne7 := parseHexDigit_ne_colon hv7
  have nf7 := parseHexDigit_ne_colon hw7
  have ne8 := parseHexDigit_ne_colon hv8
  have nf8 := parseHexDigit_ne_colon hw8
  refine ⟨[v1 <<< nibbleBitSize ||| w1, v2 <<< nibbleBitSize ||| w2,
           v3 <<< nibbleBitSize ||| w3, v4 <<< nibbleBitSize ||| w4,
           v5 <<< nibbleBitSize ||| w5, v6 <<< nibbleBitSize ||| w6,
           v7 <<< nibbleBitSize ||| w7, v8 <<< nibbleBitSize ||| w8], ?_, by simp, ?_⟩
  · rw [parseNodeIdentifier, if_neg (by rw [hslen]; omega), hslen, hdata]
    rw [show (24 : Nat) - 1 = 23 from rfl]
    rw [show List.take 23 [h1, l1, ':', h2, l2, ':', h3, l3, ':', h4, l4, ':',
          h5, l5, ':', h6, l6, ':', h7, l7, ':', h8, l8, '\n'] =
        [h1, l1, ':', h2, l2, ':', h3, l3, ':', h4, l4, ':',
          h5, l5, ':', h6, l6, ':', h7, l7, ':', h8, l8] from rfl]
    rw [packNibbles_cons2 _ (0) (([] : List Nat)) (by decide) (by simp) hv1 hw1]
    rw [packNibbles_colon]
    rw [packNibbles_cons2 _ (0 + 2) ((([] : List Nat) ++ [v1 <<< nibbleBitSize ||| w1])) (by decide) (by simp) hv2 hw2]
    rw [packNibbles_colon]
    rw [packNibbles_cons2 _ (0 + 2 + 2) (((([] : List Nat) ++ [v1 <<< nibbleBitSize ||| w1]) ++ [v2 <<< nibbleBitSize ||| w2])) (by decide) (by simp) hv3 hw3]
    rw [packNibbles_colon]
    rw [packNibbles_cons2 _ (0 + 2 + 2 + 2) ((((([] : List Nat) ++ [v1 <<< nibbleBitSize ||| w1]) ++ [v2 <<< nibbleBitSize ||| w2]) ++ [v3 <<< nibbleBitSize ||| w3])) (by decide) (by simp) hv4 hw4]
    rw [packNibbles_colon]
    rw [packNibbles_cons2 _ (0 + 2 + 2 + 2 + 2) (((((([] : List Nat) ++ [v1 <<< nibbleBitSize ||| w1]) ++ [v2 <<< nibbleBitSize ||| w2]) ++ [v3 <<< nibbleBitSize ||| w3]) ++ [v4 <<< nibbleBitSize ||| w4])) (by decide) (by simp) hv5 hw5]
    rw [packNibbles_colon]
    rw [packNibbles_cons2 _ (0 + 2 + 2 + 2 + 2 + 2) ((((((([] : List Nat) ++ [v1 <<< nibbleBitSize ||| w1]) ++ [v2 <<< nibbleBitSize ||| w2]) ++ [v3 <<< nibbleBitSize ||| w3]) ++ [v4 <<< nibbleBitSize ||| w4]) ++ [v5 <<< nibbleBitSize ||| w5])) (by decide) (by simp) hv6 hw6]
    rw [packNibbles_colon]
    rw [packNibbles_cons2 _ (0 + 2 + 2 + 2 + 2 + 2 + 2) (((((((([] : List Nat) ++ [v1 <<< nibbleBitSize ||| w1]) ++ [v2 <<< nibbleBitSize ||| w2]) ++ [v3 <<< nibbleBitSize ||| w3]) ++ [v4 <<< nibbleBitSize ||| w4]) ++ [v5 <<< nibbleBitSize ||| w5]) ++ [v6 <<< nibbleBitSize ||| w6])) (by decide) (by simp) hv7 hw7]
    rw [packNibbles_colon]
    rw [packNibbles_cons2 _ (0 + 2 + 2 + 2 + 2 + 2 + 2 + 2) ((((((((([] : List Nat) ++ [v1 <<< nibbleBitSize ||| w1]) ++ [v2 <<< nibbleBitSize ||| w2]) ++ [v3 <<< nibbleBitSize ||| w3]) ++ [v4 <<< nibbleBitSize ||| w4]) ++ [v5 <<< nibbleBitSize ||| w5]) ++ [v6 <<< nibbleBitSize ||| w6]) ++ [v7 <<< nibbleBitSize ||| w7])) (by decide) (by simp) hv8 hw8]
    rw [packNibbles_nil]
    simp
  · have d1 := nibble_divmod v1 (parseHexDigit_facts hv1).1 w1 (parseHexDigit_facts hw1).1
    have d2 := nibble_divmod v2 (parseHexDigit_facts hv2).1 w2 (parseHexDigit_facts hw2).1
    have d3 := nibble_divmod v3 (parseHexDigit_facts hv3).1 w3 (parseHexDigit_facts hw3).1
    have d4 := nibble_divmod v4 (parseHexDigit_facts hv4).1 w4 (parseHexDigit_facts hw4).1
    have d5 := nibble_divmod v5 (parseHexDigit_facts hv5).1 w5 (parseHexDigit_facts hw5).1
    have d6 := nibble_divmod v6 (parseHexDigit_facts hv6).1 w6 (parseHexDigit_facts hw6).1
    have d7 := nibble_divmod v7 (parseHexDigit_facts hv7).1 w7 (parseHexDigit_facts hw7).1
    have d8 := nibble_divmod v8 (parseHexDigit_facts hv8).1 w8 (parseHexDigit_facts hw8).1
    rw [toLowerStr, hdata]
    simp only [encodeGUIDChars, encodeByte, List.map,
      d1.1, d1.2, d2.1, d2.2, d3.1, d3.2, d4.1, d4.2,
      d5.1, d5.2, d6.1, d6.2, d7.1, d7.2, d8.1, d8.2,
      (parseHexDigit_facts hv1).2, (parseHexDigit_facts hw1).2,
      (parseHexDigit_facts hv2).2, (parseHexDigit_facts hw2).2,
      (parseHexDigit_facts hv3).2, (parseHexDigit_facts hw3).2,
      (parseHexDigit_facts hv4).2, (parseHexDigit_facts hw4).2,
      (parseHexDigit_facts hv5).2, (parseHexDigit_facts hw5).2,
      (parseHexDigit_facts hv6).2, (parseHexDigit_facts hw6).2,
      (parseHexDigit_facts hv7).2, (parseHexDigit_facts hw7).2,
      (parseHexDigit_facts hv8).2, (parseHexDigit_facts hw8).2,
      show Char.toLower ':' = ':' from by decide,
      show Char.toLower '\n' = '\n' from by decide]
    simp



/-- A concrete well-formed node-identifier string. -/
def guidSample : String :=
  String.mk ['a', 'A', ':', 'b', 'b', ':', 'c', 'c', ':', 'd', 'd', ':',
             'e', 'e', ':', 'f', 'f', ':', '0', '0', ':', '1', '1', '\n']

/-- Witness for C1 at `guidSample`. -/
theorem parseNodeIdentifier_roundtrip_witness :
    wellFormedGUID guidSample ∧
    ∃ bs, parseNodeIdentifier guidSample = .ok bs ∧ bs.length = 8 ∧
      String.mk (encodeGUIDChars bs ++ ['\n']) = toLowerStr guidSample :=
  have wf : wellFormedGUID guidSample :=
    ⟨'a', 'A', 'b', 'b', 'c', 'c', 'd', 'd', 'e', 'e', 'f', 'f', '0', '0', '1', '1',
      rfl, by decide⟩
  ⟨wf, parseNodeIdentifier_roundtrip guidSample wf⟩

/-- C4 (counterexample): for a 21-byte hardware address — length at least
20 — the extracted EUI is not the last 8 bytes of the address. -/
theorem hardwareEUI_not_last8_of_longer :
    20 ≤ (List.range 21).length ∧
    hardwareEUI (List.range 21) ≠
      (List.range 21).drop ((List.range 21).length - 8) := by
  decide

/-- C4 (amended): for every hardware address of length exactly 20 bytes —
the length of an InfiniBand hardware address — the value extracted for
comparison against node identifiers is the last 8 bytes of the address,
and it has length 8; in general the code takes all bytes from offset 12. -/
theorem hardwareEUI_last8_of_len20 (hwAddr : List Nat) (h : hwAddr.length = 20) :
    (hardwareEUI hwAddr).length = 8 ∧
    hardwareEUI hwAddr = hwAddr.drop (hwAddr.length - 8) := by
  constructor
  · simp [hardwareEUI, h]
  · rw [hardwareEUI, h]

/-- Witness for C4 (amended) at a concrete 20-byte address. -/
theorem hardwareEUI_last8_of_len20_witness :
    (List.range 20).length = 20 ∧
    ((hardwareEUI (List.range 20)).length = 8 ∧
      hardwareEUI (List.range 20) = (List.range 20).drop ((List.range 20).length - 8)) :=
  ⟨by decide, hardwareEUI_last8_of_len20 (List.range 20) (by decide)⟩

/-- C8: `IsRDmaDeviceForNetdevice` returns `true` exactly when resolution
returns a non-empty device name without error; every resolution error is
swallowed and yields `false`. -/
theorem isRdmaDeviceForNetdevice_iff (fs : FS) (nl : Netlink) (name : String) :
    (IsRDmaDeviceForNetdevice fs nl name = .ok true ↔
      ∃ d, GetRdmaDeviceForNetdevice fs nl name = .ok d ∧ d ≠ "") ∧
    ∀ e, GetRdmaDeviceForNetdevice fs nl name = .err e →
      IsRDmaDeviceForNetdevice fs nl name = .ok false := by
  constructor
  · rw [IsRDmaDeviceForNetdevice]
    cases h : GetRdmaDeviceForNetdevice fs nl name with
    | ok d =>
      by_cases hd : d = "" <;> simp [hd]
    | err e => simp
    | panic => simp
  · intro e he
    rw [IsRDmaDeviceForNetdevice, he]

/-- Netlink state for witnesses: an interface with an unsupported
encapsulation type. -/
def nlLoopback : Netlink where
  linkByName := fun _ => .ok { encapType := "loopback", hardwareAddr := [] }

/-- Pseudo-filesystem for witnesses: every directory open fails, every
file read fails, every stat fails. -/
def fsAllAbsent : FS where
  dirs := fun _ => .openFail "no such file or directory"
  readFile := fun _ => .error "no such file or directory"
  statName := fun _ => .error "no such file or directory"

/-- Witness for C8 at a concrete state. -/
theorem isRdmaDeviceForNetdevice_iff_witness :
    (IsRDmaDeviceForNetdevice fsAllAbsent nlLoopback "lo" = .ok true ↔
      ∃ d, GetRdmaDeviceForNetdevice fsAllAbsent nlLoopback "lo" = .ok d ∧ d ≠ "") ∧
    ∀ e, GetRdmaDeviceForNetdevice fsAllAbsent nlLoopback "lo" = .err e →
      IsRDmaDeviceForNetdevice fsAllAbsent nlLoopback "lo" = .ok false :=
  isRdmaDeviceForNetdevice_iff fsAllAbsent nlLoopback "lo"

/-- C9: the parsing in `getNodeGUID` removes the final byte of the file
content unconditionally — the parse result does not depend on what the
final character is — and on empty content the slice `data[:len(data)-1]`
is out of bounds, so the operation does not return normally. -/
theorem getNodeGUID_drops_final_byte (cs : List Char) (c c' : Char) (fs : FS)
    (dev : String)
    (h : fs.readFile (pJoin (pJoin RdmaClassDir dev) RdmaNodeGuidFile) = .ok "") :
    parseNodeIdentifier (String.mk (cs ++ [c])) =
      parseNodeIdentifier (String.mk (cs ++ [c'])) ∧
    parseNodeIdentifier "" = .panic ∧
    getNodeGUID fs dev = .panic := by
  refine ⟨?_, rfl, ?_⟩
  · rw [parseNodeIdentifier, parseNodeIdentifier]
    have hlen : ∀ d : Char, (String.mk (cs ++ [d])).length = cs.length + 1 := by
      intro d
      show (cs ++ [d]).length = cs.length + 1
      simp
    rw [hlen c, hlen c']
    have htake : ∀ d : Char,
        (String.mk (cs ++ [d])).data.take (cs.length + 1 - 1) = cs := by
      intro d
      show (cs ++ [d]).take (cs.length + 1 - 1) = cs
      simp
    rw [htake c, htake c']
  · rw [getNodeGUID, h]
    rfl

/-- Pseudo-filesystem for witnesses: every file read succeeds with empty
content; directory listings fail. -/
def fsEmptyFiles : FS where
  dirs := fun _ => .openFail "no such file or directory"
  readFile := fun _ => .ok ""
  statName := fun _ => .error "no such file or directory"

/-- Witness for C9 at concrete content and state. -/
theorem getNodeGUID_drops_final_byte_witness :
    fsEmptyFiles.readFile (pJoin (pJoin RdmaClassDir "mlx5_0") RdmaNodeGuidFile) =
      .ok "" ∧
    (parseNodeIdentifier (String.mk (['0', 'a'] ++ ['\n'])) =
        parseNodeIdentifier (String.mk (['0', 'a'] ++ ['x'])) ∧
      parseNodeIdentifier "" = .panic ∧
      getNodeGUID fsEmptyFiles "mlx5_0" = .panic) :=
  ⟨rfl, getNodeGUID_drops_final_byte ['0', 'a'] '\n' 'x' fsEmptyFiles "mlx5_0" rfl⟩

/-- Pseudo-filesystem for which every directory opens but reading its
entries fails, and file reads and stats fail. -/
def fsAllReadFail : FS where
  dirs := fun _ => .readFail "input/output error"
  readFile := fun _ => .error "input/output error"
  statName := fun _ => .error "input/output error"

/-- C10: when a role's class directory opens but reading its entries
fails, `getCharDevice` returns an empty path with no error, so for some
filesystem states `GetRdmaCharDevices` includes `""` in its result. -/
theorem getCharDevice_readdir_failure_empty (fs : FS) (dev cd pfx msg : String)
    (h : fs.dirs cd = .readFail msg) :
    getCharDevice fs dev cd pfx = .ok "" ∧
    "" ∈ GetRdmaCharDevices fsAllReadFail "mlx5_0" := by
  constructor
  · rw [getCharDevice, h]
  · decide

/-- Witness for C10 at a concrete state. -/
theorem getCharDevice_readdir_failure_empty_witness :
    fsAllReadFail.dirs RdmaIbUcmDir = .readFail "input/output error" ∧
    (getCharDevice fsAllReadFail "mlx5_0" RdmaIbUcmDir RdmaUcmFilePrefix = .ok "" ∧
      "" ∈ GetRdmaCharDevices fsAllReadFail "mlx5_0") :=
  ⟨rfl, getCharDevice_readdir_failure_empty fsAllReadFail "mlx5_0" RdmaIbUcmDir
    RdmaUcmFilePrefix "input/output error" rfl⟩



/-- C6: `GetRdmaDeviceForNetdevice` dispatches to the Ethernet routine
exactly for encapsulation "ether" and to the InfiniBand routine exactly
for "infiniband"; any other encapsulation yields the unsupported error
without consulting the filesystem, and a netlink lookup failure is
propagated unchanged. -/
theorem getRdmaDeviceForNetdevice_dispatch (fs : FS) (nl : Netlink) (name : String) :
    (∀ e, nl.linkByName name = .error e →
      GetRdmaDeviceForNetdevice fs nl name = .err e) ∧
    (∀ attrs, nl.linkByName name = .ok attrs →
      (attrs.encapType = "ether" →
        GetRdmaDeviceForNetdevice fs nl name = getRdmaDeviceForEth fs name) ∧
      (attrs.encapType = "infiniband" →
        GetRdmaDeviceForNetdevice fs nl name = getRdmaDeviceForIb fs attrs) ∧
      (attrs.encapType ≠ "ether" → attrs.encapType ≠ "infiniband" →
        GetRdmaDeviceForNetdevice fs nl name = .err "unknown device type" ∧
        ∀ fs', GetRdmaDeviceForNetdevice fs' nl name =
          GetRdmaDeviceForNetdevice fs nl name)) := by
  refine ⟨?_, ?_⟩
  · intro e he
    rw [GetRdmaDeviceForNetdevice, he]
  · intro attrs ha
    refine ⟨?_, ?_, ?_⟩
    · intro h
      simp only [GetRdmaDeviceForNetdevice, ha]
      rw [if_pos h]
    · intro h
      simp only [GetRdmaDeviceForNetdevice, ha]
      rw [if_neg (by rw [h]; decide), if_pos h]
    · intro h1 h2
      have hfs : ∀ g : FS, GetRdmaDeviceForNetdevice g nl name = .err "unknown device type" := by
        intro g
        simp only [GetRdmaDeviceForNetdevice, ha]
        rw [if_neg h1, if_neg h2]
      exact ⟨hfs fs, fun fs' => by rw [hfs fs', hfs fs]⟩

/-- Witness for C6 at a loopback interface and an absent filesystem. -/
theorem getRdmaDeviceForNetdevice_dispatch_witness :
    (∀ e, nlLoopback.linkByName "lo" = .error e →
      GetRdmaDeviceForNetdevice fsAllAbsent nlLoopback "lo" = .err e) ∧
    (∀ attrs, nlLoopback.linkByName "lo" = .ok attrs →
      (attrs.encapType = "ether" →
        GetRdmaDeviceForNetdevice fsAllAbsent nlLoopback "lo" =
          getRdmaDeviceForEth fsAllAbsent "lo") ∧
      (attrs.encapType = "infiniband" →
        GetRdmaDeviceForNetdevice fsAllAbsent nlLoopback "lo" =
          getRdmaDeviceForIb fsAllAbsent attrs) ∧
      (attrs.encapType ≠ "ether" → attrs.encapType ≠ "infiniband" →
        GetRdmaDeviceForNetdevice fsAllAbsent nlLoopback "lo" =
          .err "unknown device type" ∧
        ∀ fs', GetRdmaDeviceForNetdevice fs' nlLoopback "lo" =
          GetRdmaDeviceForNetdevice fsAllAbsent nlLoopback "lo")) :=
  getRdmaDeviceForNetdevice_dispatch fsAllAbsent nlLoopback "lo"

theorem scanIbDevs_no_match (fs : FS) (eui : List Nat) (devs : List String)
    (h : ∀ d ∈ devs, ∃ g, getNodeGUID fs d = .ok g ∧ eui ≠ g) :
    scanIbDevs fs eui devs = .ok "" := by
  induction devs with
  | nil => rfl
  | cons d rest ih =>
    obtain ⟨g, hg, hne⟩ := h d (by simp)
    simp only [scanIbDevs, hg]
    rw [if_neg hne]
    exact ih fun d' hd' => h d' (by simp [hd'])

theorem scanIbDevs_err (fs : FS) (eui : List Nat) (pre : List String)
    (d : String) (rest : List String) (e : String)
    (hpre : ∀ d' ∈ pre, ∃ g, getNodeGUID fs d' = .ok g ∧ eui ≠ g)
    (hd : getNodeGUID fs d = .err e) :
    scanIbDevs fs eui (pre ++ d :: rest) = .err e := by
  induction pre with
  | nil => simp only [List.nil_append, scanIbDevs, hd]
  | cons p ps ih =>
    obtain ⟨g, hg, hne⟩ := hpre p (by simp)
    simp only [List.cons_append, scanIbDevs, hg]
    rw [if_neg hne]
    exact ih fun d' hd' => hpre d' (by simp [hd'])

theorem scanIbDevs_found (fs : FS) (eui : List Nat) (pre : List String)
    (d : String) (rest : List String)
    (hpre : ∀ d' ∈ pre, ∃ g, getNodeGUID fs d' = .ok g ∧ eui ≠ g)
    (hd : getNodeGUID fs d = .ok eui) :
    scanIbDevs fs eui (pre ++ d :: rest) = .ok d := by
  induction pre with
  | nil =>
    simp only [List.nil_append, scanIbDevs, hd]
    simp
  | cons p ps ih =>
    obtain ⟨g, hg, hne⟩ := hpre p (by simp)
    simp only [List.cons_append, scanIbDevs, hg]
    rw [if_neg hne]
    exact ih fun d' hd' => hpre d' (by simp [hd'])

/-- C3: `getRdmaDeviceForIb` scans the device list comparing each parsed
node GUID with the address's extracted EUI: the first byte-equal device
is returned; if every GUID reads fine and none matches, the result is an
empty name with no error; a GUID read/parse failure after a non-matching
prefix aborts immediately with that error, independently of the devices
that follow. -/
theorem getRdmaDeviceForIb_spec (fs : FS) (attrs : LinkAttrs)
    (h12 : 12 ≤ attrs.hardwareAddr.length) :
    getRdmaDeviceForIb fs attrs =
      scanIbDevs fs (hardwareEUI attrs.hardwareAddr) (GetRdmaDeviceList fs) ∧
    (∀ (eui : List Nat) (devs : List String),
      (∀ d ∈ devs, ∃ g, getNodeGUID fs d = .ok g ∧ eui ≠ g) →
      scanIbDevs fs eui devs = .ok "") ∧
    (∀ (eui : List Nat) (pre : List String) (d : String) (rest rest' : List String)
        (e : String),
      (∀ d' ∈ pre, ∃ g, getNodeGUID fs d' = .ok g ∧ eui ≠ g) →
      getNodeGUID fs d = .err e →
      scanIbDevs fs eui (pre ++ d :: rest) = .err e ∧
      scanIbDevs fs eui (pre ++ d :: rest) = scanIbDevs fs eui (pre ++ d :: rest')) ∧
    (∀ (eui : List Nat) (pre : List String) (d : String) (rest : List String),
      (∀ d' ∈ pre, ∃ g, getNodeGUID fs d' = .ok g ∧ eui ≠ g) →
      getNodeGUID fs d = .ok eui →
      scanIbDevs fs eui (pre ++ d :: rest) = .ok d) := by
  refine ⟨?_, ?_, ?_, ?_⟩
  · rw [getRdmaDeviceForIb, if_neg (by omega)]
  · intro eui devs h
    exact scanIbDevs_no_match fs eui devs h
  · intro eui pre d rest rest' e hpre hd
    exact ⟨scanIbDevs_err fs eui pre d rest e hpre hd,
      by rw [scanIbDevs_err fs eui pre d rest e hpre hd,
             scanIbDevs_err fs eui pre d rest' e hpre hd]⟩
  · intro eui pre d rest hpre hd
    exact scanIbDevs_found fs eui pre d rest hpre hd

/-- Link attributes of a concrete 20-byte InfiniBand hardware address. -/
def ibAttrsSample : LinkAttrs where
  encapType := "infiniband"
  hardwareAddr := List.replicate 20 0

/-- Witness for C3 at a concrete 20-byte address and an absent filesystem. -/
theorem getRdmaDeviceForIb_spec_witness :
    12 ≤ ibAttrsSample.hardwareAddr.length ∧
    getRdmaDeviceForIb fsAllAbsent ibAttrsSample =
      scanIbDevs fsAllAbsent (hardwareEUI ibAttrsSample.hardwareAddr)
        (GetRdmaDeviceList fsAllAbsent) :=
  ⟨by decide, (getRdmaDeviceForIb_spec fsAllAbsent ibAttrsSample (by decide)).1⟩



theorem scanEthDevs_mem_of_some (fs : FS) (name : String) (devs : List String)
    (d : String) (h : scanEthDevs fs name devs = some d) :
    d ∈ devs ∧ devMatchesEth fs name d = true := by
  induction devs with
  | nil => exact Option.noConfusion h
  | cons x rest ih =>
    by_cases hx : devMatchesEth fs name x = true
    · rw [scanEthDevs, if_pos hx] at h
      obtain rfl : x = d := by injection h
      exact ⟨by simp, hx⟩
    · rw [scanEthDevs, if_neg hx] at h
      obtain ⟨hm, hmatch⟩ := ih h
      exact ⟨by simp [hm], hmatch⟩

theorem scanEthDevs_first (fs : FS) (name : String) (pre : List String)
    (d : String) (rest : List String)
    (hpre : ∀ d' ∈ pre, devMatchesEth fs name d' = false)
    (hd : devMatchesEth fs name d = true) :
    scanEthDevs fs name (pre ++ d :: rest) = some d := by
  induction pre with
  | nil => rw [List.nil_append, scanEthDevs, if_pos hd]
  | cons p ps ih =>
    have hp : devMatchesEth fs name p = false := hpre p (by simp)
    rw [List.cons_append, scanEthDevs, if_neg (by simp [hp])]
    exact ih fun d' hd' => hpre d' (by simp [hd'])

theorem scanEthDevs_none (fs : FS) (name : String) (devs : List String)
    (h : ∀ d ∈ devs, devMatchesEth fs name d = false) :
    scanEthDevs fs name devs = none := by
  induction devs with
  | nil => rfl
  | cons x rest ih =>
    have hx : devMatchesEth fs name x = false := h x (by simp)
    rw [scanEthDevs, if_neg (by simp [hx])]
    exact ih fun d' hd' => h d' (by simp [hd'])

/-- C2: `getRdmaDeviceForEth` returns a device only if one of its ports
has a netdev-attachment index whose file content, one trailing newline
trimmed, equals the interface name; the scan returns the first such
device in enumeration order, and when no device matches it returns the
"not found" error rather than an empty success. -/
theorem getRdmaDeviceForEth_spec (fs : FS) (name : String) :
    (∀ d, getRdmaDeviceForEth fs name = .ok d →
      d ∈ GetRdmaDeviceList fs ∧ devMatchesEth fs name d = true) ∧
    (∀ (pre : List String) (d : String) (rest : List String),
      GetRdmaDeviceList fs = pre ++ d :: rest →
      (∀ d' ∈ pre, devMatchesEth fs name d' = false) →
      devMatchesEth fs name d = true →
      getRdmaDeviceForEth fs name = .ok d) ∧
    ((∀ d ∈ GetRdmaDeviceList fs, devMatchesEth fs name d = false) →
      getRdmaDeviceForEth fs name =
        .err ("rdma device not found for netdev " ++ name)) ∧
    (∀ d, devMatchesEth fs name d = true ↔
      ∃ port ∈ GetPorts fs d, ∃ index ∈ getNetdeviceIds fs d port,
        isNetdevForRdma fs d port index name = true) ∧
    (∀ d port index, isNetdevForRdma fs d port index name = true ↔
      ∃ data, fs.readFile (ndevPath d port index) = .ok data ∧
        trimSuffixNewline data = name) := by
  refine ⟨?_, ?_, ?_, ?_, ?_⟩
  · intro d h
    rw [getRdmaDeviceForEth] at h
    cases hscan : scanEthDevs fs name (GetRdmaDeviceList fs) with
    | none => rw [hscan] at h; exact GoRes.noConfusion h
    | some d' =>
      rw [hscan] at h
      obtain rfl : d' = d := by injection h
      exact scanEthDevs_mem_of_some fs name _ d' hscan
  · intro pre d rest hlist hpre hd
    rw [getRdmaDeviceForEth, hlist, scanEthDevs_first fs name pre d rest hpre hd]
  · intro h
    rw [getRdmaDeviceForEth, scanEthDevs_none fs name _ h]
  · intro d
    simp [devMatchesEth, List.any_eq_true]
  · intro d port index
    rw [isNetdevForRdma]
    cases hr : fs.readFile (ndevPath d port index) with
    | error e => simp
    | ok data =>
      simp only [decide_eq_true_eq]
      constructor
      · intro h
        exact ⟨data, rfl, h⟩
      · rintro ⟨data', heq, htrim⟩
        obtain rfl : data = data' := by injection heq
        exact htrim

/-- Witness for C2 at a concrete interface name and filesystem. -/
theorem getRdmaDeviceForEth_spec_witness :
    (∀ d, getRdmaDeviceForEth fsAllAbsent "eth0" = .ok d →
      d ∈ GetRdmaDeviceList fsAllAbsent ∧ devMatchesEth fsAllAbsent "eth0" d = true) ∧
    (∀ (pre : List String) (d : String) (rest : List String),
      GetRdmaDeviceList fsAllAbsent = pre ++ d :: rest →
      (∀ d' ∈ pre, devMatchesEth fsAllAbsent "eth0" d' = false) →
      devMatchesEth fsAllAbsent "eth0" d = true →
      getRdmaDeviceForEth fsAllAbsent "eth0" = .ok d) ∧
    ((∀ d ∈ GetRdmaDeviceList fsAllAbsent, devMatchesEth fsAllAbsent "eth0" d = false) →
      getRdmaDeviceForEth fsAllAbsent "eth0" =
        .err ("rdma device not found for netdev " ++ "eth0")) ∧
    (∀ d, devMatchesEth fsAllAbsent "eth0" d = true ↔
      ∃ port ∈ GetPorts fsAllAbsent d, ∃ index ∈ getNetdeviceIds fsAllAbsent d port,
        isNetdevForRdma fsAllAbsent d port index "eth0" = true) ∧
    (∀ d port index, isNetdevForRdma fsAllAbsent d port index "eth0" = true ↔
      ∃ data, fsAllAbsent.readFile (ndevPath d port index) = .ok data ∧
        trimSuffixNewline data = "eth0") :=
  getRdmaDeviceForEth_spec fsAllAbsent "eth0"



theorem packNibbles_has_bad (cs : List Char) :
    ∀ (j : Nat) (acc : List Nat),
      (∃ c ∈ cs, c ≠ ':' ∧ parseHexDigit c = none) →
      ∃ e, packNibbles cs j acc = .error e := by
  induction cs with
  | nil =>
    intro j acc h
    simp at h
  | cons b rest ih =>
    intro j acc h
    by_cases hb : b = ':'
    · subst hb
      rw [packNibbles_colon]
      apply ih
      obtain ⟨c, hc, hne, hnone⟩ := h
      rcases List.mem_cons.mp hc with rfl | hmem
      · exact absurd rfl hne
      · exact ⟨c, hmem, hne, hnone⟩
    · cases hpd : parseHexDigit b with
      | none => exact ⟨"invalid hex digit", by simp [packNibbles, hpd, hb]⟩
      | some v =>
        have h' : ∃ c ∈ rest, c ≠ ':' ∧ parseHexDigit c = none := by
          obtain ⟨c, hc, hne, hnone⟩ := h
          rcases List.mem_cons.mp hc with rfl | hmem
          · rw [hpd] at hnone
            exact Option.noConfusion hnone
          · exact ⟨c, hmem, hne, hnone⟩
        simp only [packNibbles, hpd]
        rw [if_neg hb]
        split
        · exact ih _ _ h'
        · exact ih _ _ h'

theorem packNibbles_all_good (cs : List Char) :
    ∀ (j : Nat) (acc : List Nat),
      (∀ c ∈ cs, c = ':' ∨ (parseHexDigit c).isSome) →
      ∃ bs, packNibbles cs j acc = .ok bs := by
  induction cs with
  | nil => exact fun j acc _ => ⟨acc, rfl⟩
  | cons b rest ih =>
    intro j acc h
    by_cases hb : b = ':'
    · subst hb
      rw [packNibbles_colon]
      exact ih _ _ fun c hc => h c (by simp [hc])
    · rcases h b (by simp) with hcolon | hsome
      · exact absurd hcolon hb
      · obtain ⟨v, hv⟩ := Option.isSome_iff_exists.mp hsome
        simp only [packNibbles, hv]
        rw [if_neg hb]
        split
        · exact ih _ _ fun c hc => h c (by simp [hc])
        · exact ih _ _ fun c hc => h c (by simp [hc])

/-- C5 (counterexample): the malformed 6-character content "00:11\n" —
fewer than 16 hex digits — parses to a truncated 2-byte value with no
error, not a parse failure. -/
theorem parseNodeIdentifier_truncated_ok :
    parseNodeIdentifier (String.mk ['0', '0', ':', '1', '1', '\n']) = .ok [0, 17] ∧
    ([0, 17] : List Nat).length ≠ 8 := by
  decide

/-- C5 (amended): a character that is neither a colon nor a hex digit
anywhere in the parsed region (the content minus its final byte) makes
the parse fail; content made only of colons and hex digits always parses
successfully — even with fewer than 16 hex digits, in which case the
result is a truncated byte sequence rather than a failure. -/
theorem parseNodeIdentifier_malformed (s : String) (hne : ¬ s.length = 0) :
    ((∃ c ∈ s.data.take (s.length - 1), c ≠ ':' ∧ parseHexDigit c = none) →
      ∃ e, parseNodeIdentifier s = .err e) ∧
    ((∀ c ∈ s.data.take (s.length - 1), c = ':' ∨ (parseHexDigit c).isSome) →
      ∃ bs, parseNodeIdentifier s = .ok bs) := by
  constructor
  · intro h
    obtain ⟨e, he⟩ := packNibbles_has_bad (s.data.take (s.length - 1)) 0 [] h
    exact ⟨e, by rw [parseNodeIdentifier, if_neg hne, he]⟩
  · intro h
    obtain ⟨bs, hbs⟩ := packNibbles_all_good (s.data.take (s.length - 1)) 0 [] h
    exact ⟨bs, by rw [parseNodeIdentifier, if_neg hne, hbs]⟩

/-- A concrete malformed node-identifier content with a non-hex character. -/
def badGuidSample : String := String.mk ['g', '5', '\n']

/-- Witness for C5 (amended) at `badGuidSample`. -/
theorem parseNodeIdentifier_malformed_witness :
    ¬ badGuidSample.length = 0 ∧
    (((∃ c ∈ badGuidSample.data.take (badGuidSample.length - 1),
          c ≠ ':' ∧ parseHexDigit c = none) →
        ∃ e, parseNodeIdentifier badGuidSample = .err e) ∧
      ((∀ c ∈ badGuidSample.data.take (badGuidSample.length - 1),
          c = ':' ∨ (parseHexDigit c).isSome) →
        ∃ bs, parseNodeIdentifier badGuidSample = .ok bs)) :=
  ⟨by decide, parseNodeIdentifier_malformed badGuidSample (by decide)⟩

theorem scanCharEntries_ok (fs : FS) (dev cd pfx : String)
    (entries : List DirEntry) (p : String)
    (h : scanCharEntries fs dev cd pfx entries = .ok p) :
    ∃ entry, p = pJoin "/dev/infiniband" entry ∧
      ∃ data, fs.readFile (pJoin (pJoin cd entry) "ibdev") = .ok data ∧
        trimNewlines data = dev := by
  induction entries with
  | nil => exact GoRes.noConfusion h
  | cons e rest ih =>
    by_cases h1 : e.name = "." ∨ e.name = prevDir
    · rw [scanCharEntries, if_pos h1] at h
      exact ih h
    · rw [scanCharEntries, if_neg h1] at h
      by_cases h2 : strContains e.name pfx = true
      · rw [if_neg (by simp [h2])] at h
        by_cases h3 : isDirForRdmaDevice fs dev (pJoin cd e.name) = true
        · rw [if_neg (by simp [h3])] at h
          obtain rfl : pJoin "/dev/infiniband" e.name = p := by injection h
          rw [isDirForRdmaDevice] at h3
          cases hr : fs.readFile (pJoin (pJoin cd e.name) "ibdev") with
          | error msg =>
            rw [hr] at h3
            exact Bool.noConfusion h3
          | ok data =>
            rw [hr] at h3
            exact ⟨e.name, rfl, data, hr, of_decide_eq_true h3⟩
        · rw [if_pos (by simpa using h3)] at h
          exact ih h
      · rw [if_pos (by simpa using h2)] at h
        exact ih h

theorem getCharDevice_ok (fs : FS) (dev cd pfx p : String)
    (h : getCharDevice fs dev cd pfx = .ok p) :
    p = "" ∨ ∃ entry, p = pJoin "/dev/infiniband" entry ∧
      ∃ data, fs.readFile (pJoin (pJoin cd entry) "ibdev") = .ok data ∧
        trimNewlines data = dev := by
  rw [getCharDevice] at h
  cases hd : fs.dirs cd with
  | openFail msg =>
    rw [hd] at h
    exact GoRes.noConfusion h
  | readFail msg =>
    rw [hd] at h
    obtain rfl : "" = p := by injection h
    exact Or.inl rfl
  | ok entries =>
    rw [hd] at h
    exact Or.inr (scanCharEntries_ok fs dev cd pfx entries p h)

theorem getRdmaUcmDevice_ok (fs : FS) (p : String)
    (h : getRdmaUcmDevice fs = .ok p) : p = RdmaUcmDevice := by
  rw [getRdmaUcmDevice] at h
  split at h
  · exact GoRes.noConfusion h
  · split at h
    · obtain rfl : RdmaUcmDevice = p := by injection h
      rfl
    · exact GoRes.noConfusion h

theorem mem_appendIfOk {p : String} {r : GoRes String} (h : p ∈ appendIfOk r) :
    r = .ok p := by
  cases r with
  | ok v =>
    obtain rfl : p = v := by simpa [appendIfOk] using h
    rfl
  | err msg => simp [appendIfOk] at h
  | panic => simp [appendIfOk] at h

theorem appendIfOk_length (r : GoRes String) : (appendIfOk r).length ≤ 1 := by
  cases r <;> simp [appendIfOk]

/-- C7 (counterexample): on a filesystem where every class directory opens
but its entries cannot be read, the result contains the empty string,
which has no `ibdev` back-reference equal to the device. -/
theorem getRdmaCharDevices_backref_counterexample :
    "" ∈ GetRdmaCharDevices fsAllReadFail "mlx5_0" ∧
    ¬ ∃ cd entry data, ("" : String) = pJoin "/dev/infiniband" entry ∧
        fsAllReadFail.readFile (pJoin (pJoin cd entry) "ibdev") = .ok data ∧
        trimNewlines data = "mlx5_0" := by
  constructor
  · decide
  · rintro ⟨cd, entry, data, _, hread, _⟩
    exact Except.noConfusion hread

/-- C7 (amended): `GetRdmaCharDevices` concatenates at most one entry per
role (ucm, issm, umad, uverbs) and at most one global entry; every
returned path is the global `rdma_cm` device path, or the empty string
(from a role whose class-directory entries could not be read), or a role
path whose `ibdev` back-reference content, trimmed of newlines, equals
the requested device; a role with no match is omitted, not an error. -/
theorem getRdmaCharDevices_spec (fs : FS) (dev : String) :
    (GetRdmaCharDevices fs dev).length ≤ 5 ∧
    GetRdmaCharDevices fs dev =
      appendIfOk (getUcmDevice fs dev) ++ appendIfOk (getIssmDevice fs dev) ++
      appendIfOk (getUmadDevice fs dev) ++ appendIfOk (getUverbDevice fs dev) ++
      appendIfOk (getRdmaUcmDevice fs) ∧
    ∀ p ∈ GetRdmaCharDevices fs dev,
      p = RdmaUcmDevice ∨ p = "" ∨
      ∃ cd ∈ ([RdmaIbUcmDir, RdmaUmadDir, RdmaUverbsDir] : List String),
        ∃ entry data, p = pJoin "/dev/infiniband" entry ∧
          fs.readFile (pJoin (pJoin cd entry) "ibdev") = .ok data ∧
          trimNewlines data = dev := by
  refine ⟨?_, rfl, ?_⟩
  · have h1 := appendIfOk_length (getUcmDevice fs dev)
    have h2 := appendIfOk_length (getIssmDevice fs dev)
    have h3 := appendIfOk_length (getUmadDevice fs dev)
    have h4 := appendIfOk_length (getUverbDevice fs dev)
    have h5 := appendIfOk_length (getRdmaUcmDevice fs)
    rw [GetRdmaCharDevices]
    simp only [List.length_append]
    omega
  · intro p hp
    rw [GetRdmaCharDevices] at hp
    have hsplit := hp
    rcases List.mem_append.mp hsplit with hrole | hglob
    · rcases List.mem_append.mp hrole with hrole | h4
      · rcases List.mem_append.mp hrole with hrole | h3
        · rcases List.mem_append.mp hrole with h1 | h2
          · rcases getCharDevice_ok fs dev RdmaIbUcmDir RdmaUcmFilePrefix p
                (mem_appendIfOk h1) with he | ⟨entry, hpe, data, hrd, ht⟩
            · exact Or.inr (Or.inl he)
            · exact Or.inr (Or.inr ⟨RdmaIbUcmDir, by simp, entry, data, hpe, hrd, ht⟩)
          · rcases getCharDevice_ok fs dev RdmaUmadDir RdmaIssmFilePrefix p
                (mem_appendIfOk h2) with he | ⟨entry, hpe, data, hrd, ht⟩
            · exact Or.inr (Or.inl he)
            · exact Or.inr (Or.inr ⟨RdmaUmadDir, by simp, entry, data, hpe, hrd, ht⟩)
        · rcases getCharDevice_ok fs dev RdmaUmadDir RdmaUmadFilxPrefix p
              (mem_appendIfOk h3) with he | ⟨entry, hpe, data, hrd, ht⟩
          · exact Or.inr (Or.inl he)
          · exact Or.inr (Or.inr ⟨RdmaUmadDir, by simp, entry, data, hpe, hrd, ht⟩)
      · rcases getCharDevice_ok fs dev RdmaUverbsDir RdmaUverbsFilxPrefix p
            (mem_appendIfOk h4) with he | ⟨entry, hpe, data, hrd, ht⟩
        · exact Or.inr (Or.inl he)
        · exact Or.inr (Or.inr ⟨RdmaUverbsDir, by simp, entry, data, hpe, hrd, ht⟩)
    · exact Or.inl (getRdmaUcmDevice_ok fs p (mem_appendIfOk hglob))

/-- Witness for C7 (amended) at a concrete device and filesystem. -/
theorem getRdmaCharDevices_spec_witness :
    (GetRdmaCharDevices fsAllAbsent "mlx5_0").length ≤ 5 ∧
    GetRdmaCharDevices fsAllAbsent "mlx5_0" =
      appendIfOk (getUcmDevice fsAllAbsent "mlx5_0") ++
      appendIfOk (getIssmDevice fsAllAbsent "mlx5_0") ++
      appendIfOk (getUmadDevice fsAllAbsent "mlx5_0") ++
      appendIfOk (getUverbDevice fsAllAbsent "mlx5_0") ++
      appendIfOk (getRdmaUcmDevice fsAllAbsent) ∧
    ∀ p ∈ GetRdmaCharDevices fsAllAbsent "mlx5_0",
      p = RdmaUcmDevice ∨ p = "" ∨
      ∃ cd ∈ ([RdmaIbUcmDir, RdmaUmadDir, RdmaUverbsDir] : List String),
        ∃ entry data, p = pJoin "/dev/infiniband" entry ∧
          fsAllAbsent.readFile (pJoin (pJoin cd entry) "ibdev") = .ok data ∧
          trimNewlines data = "mlx5_0" :=
  getRdmaCharDevices_spec fsAllAbsent "mlx5_0"


end Rdmamap
